import Mathlib

/-!
# Verification of the `domain_derive` introspect → validate → synthesize pipeline

This file gives a shallow embedding of the derive-macro code generator in
`src/domain_derive/src/` (modules `type_checks`, `entity`, `domain_event`,
`domain_events`, `value_object` and the synthesis templates in `lib.rs`),
and proves or refutes the spec's claims about it.

Modelling conventions:
* `syn` inputs are modelled by `Syn.DeriveInput` / `Syn.Data` / `Syn.Field`:
  a field records its optional identifier (tuple-struct fields have none),
  its type (only the first path segment is ever inspected by the code),
  its visibility, and its attributes.
* Rust panics (`unwrap` / `expect` on a missing value, `abort()`) are
  modelled by `Option`: `none` is a panic, `some` a normal return.
* `syn::Error` values are modelled by their message string (every error in
  the source is anchored at `input.ident.span()`, so the location adds no
  information); a validator returns `Option (Except String Unit)`.
* The `quote!` synthesis templates are modelled syntactically by `GenExpr`
  (generated method bodies) and `GenMethod` (name, re-emitted doc
  attributes, body); the runtime semantics of the generated accessors are
  modelled by explicit functions over model record states.
-/

/-- Substring containment on strings (Rust `str::contains`). -/
def strContains (hay needle : String) : Bool :=
  (List.range (hay.toList.length + 1)).any
    (fun i => needle.toList.isPrefixOf (hay.toList.drop i))

/-- ASCII lowercasing (Rust `str::to_lowercase`; the type names the code
lowercases are ASCII identifiers). -/
def strToLower (s : String) : String := ⟨s.toList.map Char.toLower⟩

namespace Syn

/-- A (already parsed) attribute: its meta path and its content.  The source
only ever asks whether the path is `doc` and re-emits the attribute. -/
structure Attr where
  path : String
  text : String
  deriving DecidableEq, Repr

/-- A Rust type as far as the generator inspects it: a path type is reduced
to its first segment's identifier (the source only ever reads
`path.segments.iter().next()`); anything else is opaque. -/
inductive RustTy where
  | path (firstSeg : String)
  | other (tag : String)
  deriving DecidableEq, Repr

/-- A struct field: optional name (unnamed for tuple structs), type,
visibility, attributes. -/
structure Field where
  ident : Option String
  ty : RustTy
  isPub : Bool
  attrs : List Attr
  deriving DecidableEq, Repr

/-- An enum variant; the generator only ever reads its identifier. -/
structure Variant where
  ident : String
  deriving DecidableEq, Repr

/-- The shape of the annotated declaration. -/
inductive Data where
  | Struct (fields : List Field)
  | Enum (variants : List Variant)
  | Union
  deriving DecidableEq, Repr

/-- The derive-macro input: declaration name and shape. -/
structure DeriveInput where
  ident : String
  data : Data
  deriving DecidableEq, Repr

end Syn

open Syn

/-- Rust `Iterator::any` over a fallible predicate: `none` models a panic
inside the predicate; evaluation is left-to-right and short-circuits on the
first `true`, exactly like Rust's `any`. -/
def anyOpt (p : α → Option Bool) : List α → Option Bool
  | [] => some false
  | a :: rest =>
    match p a with
    | none => none
    | some true => some true
    | some false => anyOpt p rest

/-- Rust `Iterator::find` over a fallible predicate (panic-propagating). -/
def findOpt (p : α → Option Bool) : List α → Option (Option α)
  | [] => some none
  | a :: rest =>
    match p a with
    | none => none
    | some true => some (some a)
    | some false => findOpt p rest

/-! ## `type_checks.rs` — the type classifier of the source -/

/-- `is_uuid_type`: the first path segment, lowercased, contains `uuid`. -/
def is_uuid_type (f : Field) : Bool :=
  match f.ty with
  | .path s => strContains (strToLower s) "uuid"
  | .other _ => false

/-- The ten fixed-width integer type names accepted by `is_int_type`. -/
def intTypeNames : List String :=
  ["u128", "u64", "u32", "u16", "u8", "i128", "i64", "i32", "i16", "i8"]

/-- `is_int_type`: the first path segment is one of the ten integer names. -/
def is_int_type (f : Field) : Bool :=
  match f.ty with
  | .path s => intTypeNames.contains s
  | .other _ => false

/-- `is_timestamp_type`: the first path segment is exactly `u64`. -/
def is_timestamp_type (f : Field) : Bool :=
  match f.ty with
  | .path s => s == "u64"
  | .other _ => false

/-! ## Spec-side type classification (§4.1 of the spec)

`classify` follows the spec's classifier contract, with `Timestamp`
checked as a refinement before the generic `Integer` case; it is used to
state claims that speak of a field "classified `Other`" etc. -/

/-- The spec's `TypeClass`. -/
inductive TypeClass where
  | Identifier
  | Integer
  | Timestamp
  | Other
  deriving DecidableEq, Repr

/-- Spec §4.1 classifier over a type name. -/
def classify (typeName : String) : TypeClass :=
  if strContains (strToLower typeName) "uuid" then .Identifier
  else if typeName == "u64" then .Timestamp
  else if intTypeNames.contains typeName then .Integer
  else .Other

/-- Classification of a field's type (non-path types are `Other`). -/
def classifyField (f : Field) : TypeClass :=
  match f.ty with
  | .path s => classify s
  | .other _ => .Other

/-! ## Generated code, syntactically

`GenExpr` mirrors the expression shapes that occur in the `quote!`
templates of `lib.rs` / `entity.rs` / `domain_events.rs`. -/

/-- Body expressions of generated methods. -/
inductive GenExpr where
  /-- `self.f` -/
  | selfField (f : String)
  /-- `&self.f` -/
  | refSelfField (f : String)
  /-- `other.f` (inside the generated `PartialEq`) -/
  | otherField (f : String)
  /-- `recv.m()` -/
  | methodCall (recv : GenExpr) (m : String)
  /-- `e as u64` -/
  | asU64 (e : GenExpr)
  /-- `a == b` -/
  | eqCmp (a b : GenExpr)
  /-- `match self { Parent::V1(child) => child.func(), ... }`: one arm per
  listed variant name, in order, each binding the payload as `child` and
  forwarding to `child.func()`; there is no other arm (the template has no
  default arm, which this constructor cannot even express). -/
  | matchForward (parent : String) (variantArms : List String) (func : String)
  deriving DecidableEq, Repr

/-- A generated method: its name, the doc attributes re-emitted immediately
above it, and its body. -/
structure GenMethod where
  name : String
  docs : List Attr
  body : GenExpr
  deriving DecidableEq, Repr

/-! ## `entity.rs` — the identity-record (`Entity`) validator and getters -/

namespace entity

/-- `entity::has_id_field`: some field is named `id` and is a uuid type.
The per-field `ident.unwrap()` panics on an unnamed field. -/
def has_id_field (data : Data) : Option Bool :=
  match data with
  | .Struct fields =>
    anyOpt (fun f => do
      let n ← f.ident
      pure (n == "id" && is_uuid_type f)) fields
  | _ => some false

/-- `entity::has_version_field`: some field is named `version` with an
integer type. -/
def has_version_field (data : Data) : Option Bool :=
  match data with
  | .Struct fields =>
    anyOpt (fun f => do
      let n ← f.ident
      pure (n == "version" && is_int_type f)) fields
  | _ => some false

/-- `entity::is_public` on a field's visibility. -/
def is_public (f : Field) : Bool := f.isPub

/-- `entity::has_public_field` (reads no idents, hence never panics). -/
def has_public_field (data : Data) : Bool :=
  match data with
  | .Struct fields => fields.any is_public
  | _ => false

/-- `entity::check_id_field`. -/
def check_id_field (input : DeriveInput) : Option (Except String Unit) := do
  let b ← has_id_field input.data
  if !b then pure (.error "expected `id` field with type Uuid")
  else pure (.ok ())

/-- `entity::check_version_field`. -/
def check_version_field (input : DeriveInput) : Option (Except String Unit) := do
  let b ← has_version_field input.data
  if !b then pure (.error "expected `version` field with integer type.")
  else pure (.ok ())

/-- `entity::check_public_fields`. -/
def check_public_fields (input : DeriveInput) : Option (Except String Unit) :=
  if has_public_field input.data then
    some (.error "cant have any public fields. Interior mutability should be limited to methods only")
  else some (.ok ())

/-- `entity::precondition`: the three checks chained with `?`. -/
def precondition (input : DeriveInput) : Option (Except String Unit) := do
  match ← check_id_field input with
  | .error e => pure (.error e)
  | .ok _ =>
    match ← check_version_field input with
    | .error e => pure (.error e)
    | .ok _ =>
      match ← check_public_fields input with
      | .error e => pure (.error e)
      | .ok _ => pure (.ok ())

/-- `entity::implement_getter`: a getter named after the field, returning
`&self.field`, with the field's `doc` attributes re-emitted above it.
Panics (`expect`) if the field has no name. -/
def implement_getter (f : Field) : Option GenMethod := do
  let n ← f.ident
  pure { name := n
         docs := f.attrs.filter (fun a => a.path == "doc")
         body := .refSelfField n }

/-- The filter-then-map loop inside `entity::produce_getters`: skip the
`id` and `version` fields, generate a getter for every other field.  The
filter closure unwraps the field name, hence panics on an unnamed field. -/
def produceGettersList : List Field → Option (List GenMethod)
  | [] => some []
  | f :: rest => do
    let n ← f.ident
    if n == "id" || n == "version" then produceGettersList rest
    else do
      let g ← implement_getter f
      let rest' ← produceGettersList rest
      pure (g :: rest')

/-- `entity::produce_getters`. -/
def produce_getters (input : DeriveInput) : Option (Except String (List GenMethod)) :=
  match input.data with
  | .Struct fields => do
    let gs ← produceGettersList fields
    pure (.ok gs)
  | _ => some (.error "cannot produce getters for an enum")

end entity

/-- `entity_derive` (`lib.rs`): run the precondition (its `expect` panics
on a validation error), then emit the `Entity` impl
(`fn id(&self) -> String { self.id.to_string() }`), the `PartialEq` impl
comparing the `id` fields, and the getters. -/
def entity_derive (input : DeriveInput) : Option (List GenMethod) := do
  match ← entity.precondition input with
  | .error _ => none
  | .ok _ => do
    let getters ←
      match ← entity.produce_getters input with
      | .error _ => none
      | .ok gs => some gs
    pure ({ name := "id", docs := [],
            body := .methodCall (.selfField "id") "to_string" } ::
          { name := "eq", docs := [],
            body := .eqCmp (.selfField "id") (.otherField "id") } ::
          getters)

/-! ## `domain_event.rs` — the domain-event-record validator -/

namespace domain_event

/-- `domain_event::has_id_field`: some field is named `id` (the name is
the only thing checked — the type is not inspected). -/
def has_id_field (data : Data) : Option Bool :=
  match data with
  | .Struct fields =>
    anyOpt (fun f => do
      let n ← f.ident
      pure (n == "id")) fields
  | _ => some false

/-- `domain_event::has_aggregate_id_field` (never called by the
validator — dead code in the source). -/
def has_aggregate_id_field (data : Data) : Option Bool :=
  match data with
  | .Struct fields =>
    anyOpt (fun f => do
      let n ← f.ident
      pure (n == "aggregate_id" && is_uuid_type f)) fields
  | _ => some false

/-- `domain_event::has_occurred_field` (never called by the validator —
dead code in the source). -/
def has_occurred_field (data : Data) : Option Bool :=
  match data with
  | .Struct fields =>
    anyOpt (fun f => do
      let n ← f.ident
      pure (n == "occurred" && is_timestamp_type f)) fields
  | _ => some false

/-- `domain_event::has_version_field`. -/
def has_version_field (data : Data) : Option Bool :=
  match data with
  | .Struct fields =>
    anyOpt (fun f => do
      let n ← f.ident
      pure (n == "version" && is_int_type f)) fields
  | _ => some false

/-- `domain_event::check_id_field`. -/
def check_id_field (input : DeriveInput) : Option (Except String Unit) := do
  let b ← has_id_field input.data
  if !b then pure (.error "expected `id` field with type Uuid")
  else pure (.ok ())

/-- `domain_event::check_aggregate_id_field`.  NOTE: the source body tests
`has_id_field`, not `has_aggregate_id_field`. -/
def check_aggregate_id_field (input : DeriveInput) : Option (Except String Unit) := do
  let b ← has_id_field input.data
  if !b then pure (.error "expected `aggregate_id` field with type Uuid")
  else pure (.ok ())

/-- `domain_event::check_occurred_field`.  NOTE: the source body tests
`has_id_field`, not `has_occurred_field`. -/
def check_occurred_field (input : DeriveInput) : Option (Except String Unit) := do
  let b ← has_id_field input.data
  if !b then pure (.error "expected `occurred` field with type i64")
  else pure (.ok ())

/-- `domain_event::check_version_field`. -/
def check_version_field (input : DeriveInput) : Option (Except String Unit) := do
  let b ← has_version_field input.data
  if !b then pure (.error "expected `version` field with integer type.")
  else pure (.ok ())

/-- `domain_event::precondition`: the four checks chained with `?`. -/
def precondition (input : DeriveInput) : Option (Except String Unit) := do
  match ← check_id_field input with
  | .error e => pure (.error e)
  | .ok _ =>
    match ← check_aggregate_id_field input with
    | .error e => pure (.error e)
    | .ok _ =>
      match ← check_occurred_field input with
      | .error e => pure (.error e)
      | .ok _ =>
        match ← check_version_field input with
        | .error e => pure (.error e)
        | .ok _ => pure (.ok ())

end domain_event

/-- The four accessor methods emitted by `domain_event_derive`
(`lib.rs`): `occurred` returns `self.occurred`, `id` returns
`self.id.to_string()`, `aggregate_id` returns `self.aggregate_id.clone()`,
`version` returns `self.version as u64`. -/
def domain_event_methods : List GenMethod :=
  [ { name := "occurred", docs := [], body := .selfField "occurred" },
    { name := "id", docs := [], body := .methodCall (.selfField "id") "to_string" },
    { name := "aggregate_id", docs := [], body := .methodCall (.selfField "aggregate_id") "clone" },
    { name := "version", docs := [], body := .asU64 (.selfField "version") } ]

/-- `domain_event_derive` (`lib.rs`): run the precondition (its `expect`
panics on a validation error) and emit the four fixed accessors. -/
def domain_event_derive (input : DeriveInput) : Option (List GenMethod) := do
  match ← domain_event.precondition input with
  | .error _ => none
  | .ok _ => pure domain_event_methods

/-! ## `domain_events.rs` — the sum-type (enum) dispatcher generator -/

namespace domain_events

/-- `domain_events::is_enum`. -/
def is_enum (data : Data) : Bool :=
  match data with
  | .Enum _ => true
  | _ => false

/-- `domain_events::check_if_enum` (no panics anywhere on this path, so
the result is a plain `Except`). -/
def check_if_enum (input : DeriveInput) : Except String Unit :=
  if !is_enum input.data then
    .error "expected data structure to be an enum"
  else .ok ()

/-- `domain_events::precondition`: only the enum check. -/
def precondition (input : DeriveInput) : Except String Unit :=
  check_if_enum input

/-- `domain_events::create_inner_match_for_getter`: the single dispatch
template, parameterized only by the accessor name.  It emits
`match self { Parent::V(child) => child.func(), ... }` with one arm per
variant, in declaration order, and no other arm.  On a non-enum input the
source calls `abort()`, modelled by `none`. -/
def create_inner_match_for_getter (input : DeriveInput) (func_name : String) :
    Option GenExpr :=
  match input.data with
  | .Enum variants =>
    some (.matchForward input.ident (variants.map Variant.ident) func_name)
  | _ => none

end domain_events

/-- `domain_events_derive` (`lib.rs`): run the precondition (its `expect`
panics on a validation error), then instantiate the dispatch template once
per event-metadata accessor name. -/
def domain_events_derive (input : DeriveInput) : Option (List GenMethod) := do
  match domain_events.precondition input with
  | .error _ => none
  | .ok _ => do
    let occurredMatch ← domain_events.create_inner_match_for_getter input "occurred"
    let idMatch ← domain_events.create_inner_match_for_getter input "id"
    let aggregateIdMatch ← domain_events.create_inner_match_for_getter input "aggregate_id"
    let versionMatch ← domain_events.create_inner_match_for_getter input "version"
    pure [ { name := "occurred", docs := [], body := occurredMatch },
           { name := "id", docs := [], body := idMatch },
           { name := "aggregate_id", docs := [], body := aggregateIdMatch },
           { name := "version", docs := [], body := versionMatch } ]

/-! ## `value_object.rs` — the validated-value (`ValueSetup`) validator -/

namespace value_object

/-- `value_object::has_one_field`. -/
def has_one_field (data : Data) : Bool :=
  match data with
  | .Struct fields => fields.length == 1
  | _ => false

/-- `value_object::has_value_field`: some field is named `value` (the
per-field `ident.unwrap()` panics on an unnamed field). -/
def has_value_field (data : Data) : Option Bool :=
  match data with
  | .Struct fields =>
    anyOpt (fun f => do
      let n ← f.ident
      pure (n == "value")) fields
  | _ => some false

/-- `value_object::check_value_field`: `has_value_field` is evaluated
first (panic included), then `has_one_field`. -/
def check_value_field (input : DeriveInput) : Option (Except String Unit) := do
  let hv ← has_value_field input.data
  if hv && has_one_field input.data then pure (.ok ())
  else pure (.error "expected a struct with a single field named `value`.")

/-- `value_object::precondition`. -/
def precondition (input : DeriveInput) : Option (Except String Unit) :=
  check_value_field input

/-- `value_object::value_type_name`: find the field whose name contains
`value` and return the first segment of its path type.  The outer `Option`
is the panic monad (`find(..).unwrap()` and the per-field ident unwrap);
the inner `Option` is the source's own return value (`None` when the
field's type is not a path type, or the input is not a struct). -/
def value_type_name (data : Data) : Option (Option String) :=
  match data with
  | .Struct fields => do
    let found ← findOpt (fun f => do
      let n ← f.ident
      pure (strContains n "value")) fields
    match found with
    | none => none
    | some f =>
      match f.ty with
      | .path s => some (some s)
      | .other _ => some none
  | _ => some none

/-- `value_object::error_name_from_type`: the struct name with the fixed
suffix `ValidationError` appended. -/
def error_name_from_type (type_name : String) : String :=
  type_name ++ "ValidationError"

end value_object

/-- The pieces of `value_object_derive`'s output that the claims speak
about: the target type name, the source type of the generated
`TryFrom`, and the path of the associated `Error` type written into the
generated `impl TryFrom`. -/
structure ValueGen where
  typeName : String
  tryFromSource : String
  errorTypePath : String
  deriving DecidableEq, Repr

/-- `value_object_derive` (`lib.rs`): run the precondition (its `expect`
panics on a validation error), unwrap `value_type_name` (panics when the
`value` field's type is not a path type), and emit — among `Display`,
`PartialEq` and `Clone` impls — a `TryFrom<#type_name>` impl whose
associated error type is written literally as `crate::Error` (the
`error_name_from_type` call is commented out in the source). -/
def value_object_derive (input : DeriveInput) : Option ValueGen := do
  match ← value_object.precondition input with
  | .error _ => none
  | .ok _ => do
    let tn ← (← value_object.value_type_name input.data)
    pure { typeName := input.ident
           tryFromSource := tn
           errorTypePath := "crate::Error" }

/-! ## Runtime semantics of the generated code

The generated accessor bodies are straight-line field reads, clones and
casts; we give them meaning over explicit model states. -/

/-- A model of a `Uuid` value (the generator never looks inside one). -/
structure Uuid where
  val : Nat
  deriving DecidableEq, Repr

/-- A runtime state of a record accepted by the domain-event validator:
`occurred` holds an integer, `version` the (signed, arbitrary width)
integer stored in the `version` field. -/
structure EvtState where
  id : Uuid
  aggregate_id : Uuid
  occurred : Int
  version : Int
  deriving DecidableEq, Repr

/-- Semantics of the generated `fn occurred(&self) -> i64 { self.occurred }`. -/
def genOccurred (r : EvtState) : Int := r.occurred

/-- Semantics of the generated
`fn aggregate_id(&self) -> ... { self.aggregate_id.clone() }`:
`clone` is the identity on the value. -/
def genAggregateId (r : EvtState) : Uuid := r.aggregate_id

/-- Semantics of the generated `fn version(&self) -> u64 { self.version as u64 }`:
Rust's `as u64` on any integer source type is reduction modulo `2 ^ 64`
of the stored value, reinterpreted as unsigned. -/
def genVersion (r : EvtState) : Nat := (r.version.emod (2 ^ 64)).toNat

/-- A runtime value returned by an event-metadata accessor. -/
inductive Value where
  | int (i : Int)
  | natv (n : Nat)
  | str (s : String)
  deriving DecidableEq, Repr

/-- A model payload of a sum-type variant: what its four event-metadata
accessors return (the payload is assumed to implement the contract). -/
structure EventMeta where
  occurredVal : Int
  idVal : String
  aggregateIdVal : String
  versionVal : Nat
  deriving DecidableEq, Repr

/-- Invoking the accessor named `f` directly on a payload (`none` when the
payload has no such method). -/
def EventMeta.call (m : EventMeta) (f : String) : Option Value :=
  if f == "occurred" then some (.int m.occurredVal)
  else if f == "id" then some (.str m.idVal)
  else if f == "aggregate_id" then some (.str m.aggregateIdVal)
  else if f == "version" then some (.natv m.versionVal)
  else none

/-- A runtime value of the sum type: the name of the variant it was
constructed with, together with its wrapped payload. -/
structure SumValue where
  variantName : String
  payload : EventMeta
  deriving DecidableEq, Repr

/-- Evaluating a generated dispatcher body on a sum value: the generated
`match self` tries its arms in order; the arm whose variant pattern matches
binds the payload as `child` and calls `child.func()`.  `none` means no
arm matched (the match would be non-exhaustive) or the body is not a
dispatcher. -/
def evalDispatch (body : GenExpr) (v : SumValue) : Option Value :=
  match body with
  | .matchForward _ arms func =>
    if arms.contains v.variantName then v.payload.call func else none
  | _ => none

/-- The number of arms of a generated dispatcher body. -/
def armCount (body : GenExpr) : Nat :=
  match body with
  | .matchForward _ arms _ => arms.length
  | _ => 0

/-! ## Runtime semantics of the generated `TryFrom` constructor -/

/-- A runtime instance of a validated-value record: the single stored
`value` field. -/
structure ValueRec (α : Type) where
  value : α
  deriving DecidableEq, Repr

/-- The externally supplied `value` accessor, per the trait contract the
generator assumes: it exposes the stored `value` field. -/
def ValueRec.getValue (r : ValueRec α) : α := r.value

/-- Semantics of the generated
`fn try_from(value) { Self::validate(&value)?; Ok(Self { value }) }`,
parameterized by the externally supplied `validate`. -/
def generated_try_from (validate : α → Except ε Unit) (value : α) :
    Except ε (ValueRec α) :=
  match validate value with
  | .error e => .error e
  | .ok _ => .ok { value := value }

/-! ## Spec-side predicates used to state the claims -/

/-- The declaration has a field with the given name satisfying `p`. -/
def hasFieldNamed (data : Data) (name : String) (p : Field → Bool) : Bool :=
  match data with
  | .Struct fields => fields.any (fun f => f.ident == some name && p f)
  | _ => false

/-- The four domain-event-record field requirements as the claim states
them: `id` classified `Identifier`, `aggregate_id` classified
`Identifier`, `occurred` classified `Timestamp`, `version` classified
`Integer` (classification per the source's `type_checks` predicates). -/
def domainEventRequirements (data : Data) : Bool :=
  hasFieldNamed data "id" is_uuid_type &&
  hasFieldNamed data "aggregate_id" is_uuid_type &&
  hasFieldNamed data "occurred" is_timestamp_type &&
  hasFieldNamed data "version" is_int_type

/-- The identity-record requirements as the claim states them: `id`
classified `Identifier`, `version` classified `Integer`, and no public
field. -/
def entityRequirements (data : Data) : Bool :=
  hasFieldNamed data "id" is_uuid_type &&
  hasFieldNamed data "version" is_int_type &&
  !(entity.has_public_field data)

/-- Every field of the declaration is named. -/
def allFieldsNamed (data : Data) : Bool :=
  match data with
  | .Struct fields => fields.all (fun f => f.ident.isSome)
  | _ => true

/-- The field names of a struct declaration are pairwise distinct
(guaranteed by the host language). -/
def fieldNamesNodup (data : Data) : Prop :=
  match data with
  | .Struct fields => (fields.map Field.ident).Nodup
  | _ => True

/-! ## Concrete sample declarations and synthesis normal forms -/

/-- A record `{id: Uuid, version: u64, name: String}` with only private
fields. -/
def goodUser : DeriveInput :=
  { ident := "User"
    data := .Struct
      [ { ident := some "id", ty := .path "Uuid", isPub := false, attrs := [] },
        { ident := some "version", ty := .path "u64", isPub := false, attrs := [] },
        { ident := some "name", ty := .path "String", isPub := false, attrs := [] } ] }

/-- The spec's scenario record `{name: String}`. -/
def nameOnlyRecord : DeriveInput :=
  { ident := "NameOnly"
    data := .Struct
      [ { ident := some "name", ty := .path "String", isPub := false, attrs := [] } ] }

/-- A record with an `id` field and an integer `version` field but neither
an `aggregate_id` nor an `occurred` field. -/
def eventMissingFields : DeriveInput :=
  { ident := "PartialEvent"
    data := .Struct
      [ { ident := some "id", ty := .path "Uuid", isPub := false, attrs := [] },
        { ident := some "version", ty := .path "u64", isPub := false, attrs := [] } ] }

/-- A one-field tuple struct (`struct Wrapper(u64);`). -/
def tupleWrapper : List Field :=
  [ { ident := none, ty := .path "u64", isPub := false, attrs := [] } ]

/-- The crate documentation's own example: `struct Email { pub value: String }`. -/
def emailRecord : DeriveInput :=
  { ident := "Email"
    data := .Struct
      [ { ident := some "value", ty := .path "String", isPub := true, attrs := [] } ] }

/-- A sample external validator for the C6 witness: accepts even numbers. -/
def evenValidate : Nat → Except String Unit :=
  fun n => if n % 2 == 0 then .ok () else .error "odd value"

/-- The spec scenario sum type: `enum UserEvents { A(EventA), B(EventB) }`. -/
def userEventsEnum : DeriveInput :=
  { ident := "UserEvents", data := .Enum [ { ident := "A" }, { ident := "B" } ] }

/-- A payload whose `version()` accessor returns 1. -/
def eventAPayload : EventMeta :=
  { occurredVal := 100, idVal := "e1", aggregateIdVal := "agg", versionVal := 1 }

/-- The getter generated for a (named) field. -/
def getterOf (f : Field) : GenMethod :=
  { name := f.ident.getD ""
    docs := f.attrs.filter (fun a => a.path == "doc")
    body := .refSelfField (f.ident.getD "") }

/-- Normal form of the getter list produced by `entity::produce_getters`:
one getter per field other than `id` and `version`, in field order. -/
def gettersOf (fs : List Field) : List GenMethod :=
  (fs.filter (fun f => !(f.ident == some "id") && !(f.ident == some "version"))).map
    getterOf

/-- A minimal identity record `{id: Uuid, version: u64}`, private fields. -/
def userIdVersion : DeriveInput :=
  { ident := "User"
    data := .Struct
      [ { ident := some "id", ty := .path "Uuid", isPub := false, attrs := [] },
        { ident := some "version", ty := .path "u64", isPub := false, attrs := [] } ] }

/-- What `entity_derive` emits for `userIdVersion`. -/
def userIdVersionGen : List GenMethod :=
  [ { name := "id", docs := [], body := .methodCall (.selfField "id") "to_string" },
    { name := "eq", docs := [], body := .eqCmp (.selfField "id") (.otherField "id") } ]

/-- A record satisfying all four domain-event field requirements, with a
signed 64-bit `version` field. -/
def fullEventRecord : DeriveInput :=
  { ident := "FullEvent"
    data := .Struct
      [ { ident := some "id", ty := .path "Uuid", isPub := false, attrs := [] },
        { ident := some "aggregate_id", ty := .path "Uuid", isPub := false, attrs := [] },
        { ident := some "occurred", ty := .path "u64", isPub := false, attrs := [] },
        { ident := some "version", ty := .path "i64", isPub := false, attrs := [] } ] }

/-- A runtime state of `fullEventRecord` whose stored `version` is `-1`. -/
def negVersionState : EvtState :=
  { id := { val := 1 }, aggregate_id := { val := 2 }, occurred := 0, version := -1 }

/-- An identity record with a documented extra field. -/
def documentedUser : DeriveInput :=
  { ident := "DocUser"
    data := .Struct
      [ { ident := some "id", ty := .path "Uuid", isPub := false, attrs := [] },
        { ident := some "version", ty := .path "u64", isPub := false, attrs := [] },
        { ident := some "email", ty := .path "String", isPub := false,
          attrs := [ { path := "doc", text := " The email of the user." },
                     { path := "serde", text := "skip" } ] } ] }

/-! ## Helper lemmas -/

instance {ε α : Type} [DecidableEq ε] [DecidableEq α] : DecidableEq (Except ε α) :=
  fun a b =>
    match a, b with
    | .error x, .error y =>
      if h : x = y then isTrue (by rw [h]) else isFalse (by simp [h])
    | .ok x, .ok y =>
      if h : x = y then isTrue (by rw [h]) else isFalse (by simp [h])
    | .error _, .ok _ => isFalse (by simp)
    | .ok _, .error _ => isFalse (by simp)

/-- Unfolding equation for `anyOpt` on a cons cell. -/
theorem anyOpt_cons (p : α → Option Bool) (a : α) (l : List α) :
    anyOpt p (a :: l) =
      match p a with
      | none => none
      | some true => some true
      | some false => anyOpt p l := rfl

/-- On all-named field lists, the panic-modelling `anyOpt` over a
name-and-predicate test computes to `some` of the pure `any`. -/
theorem anyOpt_name_pred (name : String) (p : Field → Bool) :
    ∀ fs : List Field, (∀ f ∈ fs, f.ident.isSome) →
    anyOpt (fun f => do
      let n ← f.ident
      pure (n == name && p f)) fs
      = some (fs.any (fun f => f.ident == some name && p f)) := by
  intro fs
  induction fs with
  | nil => intro _; rfl
  | cons f rest ih =>
    intro h
    obtain ⟨n, hn⟩ := Option.isSome_iff_exists.mp (h f (List.mem_cons_self f rest))
    have hrest := ih (fun g hg => h g (List.mem_cons_of_mem f hg))
    have hstep : (do
        let m ← f.ident
        pure (m == name && p f) : Option Bool) = some (n == name && p f) := by
      rw [hn]; rfl
    have hany : (f.ident == some name && p f) = (n == name && p f) := by
      rw [hn]; simp
    rw [anyOpt_cons, hstep, List.any_cons, hany]
    cases hb : (n == name && p f)
    · simpa [hb] using hrest
    · simp

/-- Name-only variant of `anyOpt_name_pred`. -/
theorem anyOpt_name (name : String) :
    ∀ fs : List Field, (∀ f ∈ fs, f.ident.isSome) →
    anyOpt (fun f => do
      let n ← f.ident
      pure (n == name)) fs
      = some (fs.any (fun f => f.ident == some name)) := by
  intro fs
  induction fs with
  | nil => intro _; rfl
  | cons f rest ih =>
    intro h
    obtain ⟨n, hn⟩ := Option.isSome_iff_exists.mp (h f (List.mem_cons_self f rest))
    have hrest := ih (fun g hg => h g (List.mem_cons_of_mem f hg))
    have hstep : (do
        let m ← f.ident
        pure (m == name) : Option Bool) = some (n == name) := by
      rw [hn]; rfl
    have hany : (f.ident == some name) = (n == name) := by
      rw [hn]; simp
    rw [anyOpt_cons, hstep, List.any_cons, hany]
    cases hb : (n == name)
    · simpa [hb] using hrest
    · simp

/-- Normal form of the identity-record validator on a struct whose fields
are all named: the first failing predicate wins, in source order
(`id`, then `version`, then visibility). -/
theorem entity_precondition_eq (input : DeriveInput) (fs : List Field)
    (hdata : input.data = .Struct fs) (hnamed : ∀ f ∈ fs, f.ident.isSome) :
    entity.precondition input =
      some (if !(fs.any (fun f => f.ident == some "id" && is_uuid_type f)) then
              .error "expected `id` field with type Uuid"
            else if !(fs.any (fun f => f.ident == some "version" && is_int_type f)) then
              .error "expected `version` field with integer type."
            else if fs.any entity.is_public then
              .error "cant have any public fields. Interior mutability should be limited to methods only"
            else .ok ()) := by
  have h1 : entity.has_id_field input.data
      = some (fs.any fun f => f.ident == some "id" && is_uuid_type f) := by
    rw [hdata]; exact anyOpt_name_pred "id" is_uuid_type fs hnamed
  have h2 : entity.has_version_field input.data
      = some (fs.any fun f => f.ident == some "version" && is_int_type f) := by
    rw [hdata]; exact anyOpt_name_pred "version" is_int_type fs hnamed
  have h3 : entity.has_public_field input.data = fs.any entity.is_public := by
    rw [hdata]; rfl
  simp only [entity.precondition, entity.check_id_field, entity.check_version_field,
             entity.check_public_fields, h1, h2, h3]
  cases hB1 : fs.any (fun f => f.ident == some "id" && is_uuid_type f) <;>
    cases hB2 : fs.any (fun f => f.ident == some "version" && is_int_type f) <;>
      cases hB3 : fs.any entity.is_public <;>
        simp [hB3, Bind.bind, Option.bind]

/-- C7: For every record declaration submitted to identity-record
validation, validation succeeds if and only if the record has a field
named `id` classified Identifier, a field named `version` classified
Integer, and no field with Public visibility. -/
theorem C7_identity_validation_iff (input : DeriveInput) (fs : List Field)
    (hdata : input.data = .Struct fs) (hnamed : ∀ f ∈ fs, f.ident.isSome) :
    entity.precondition input = some (.ok ()) ↔
      entityRequirements input.data = true := by
  rw [entity_precondition_eq input fs hdata hnamed, hdata]
  simp only [entityRequirements, hasFieldNamed, entity.has_public_field]
  cases hB1 : fs.any (fun f => f.ident == some "id" && is_uuid_type f) <;>
    cases hB2 : fs.any (fun f => f.ident == some "version" && is_int_type f) <;>
      cases hB3 : fs.any entity.is_public <;> simp

/-- Witness for C7 at `goodUser`: the requirements hold and validation
succeeds. -/
theorem C7_identity_validation_iff_witness :
    entity.precondition goodUser = some (.ok ()) :=
  (C7_identity_validation_iff goodUser _ rfl (by decide)).mpr (by decide)

/-- A field classified `Other` by the spec classifier is in particular not
an identifier type for the source's `is_uuid_type` test. -/
theorem classifyField_Other_not_uuid (f : Field) (h : classifyField f = .Other) :
    is_uuid_type f = false := by
  cases hty : f.ty with
  | path s =>
    simp only [classifyField, hty] at h
    unfold classify at h
    simp only [is_uuid_type, hty]
    split_ifs at h with h1 h2 h3
    simpa using h1
  | other t => simp only [is_uuid_type, hty]

/-- C8: For every record missing an `id` field, or whose `id` field
classifies as Other, identity-record validation fails with the diagnostic
naming `id`; validation short-circuits on the first failing predicate, so
even a record that also lacks `version` gets the `id` diagnostic. -/
theorem C8_missing_id_diagnostic (input : DeriveInput) (fs : List Field)
    (hdata : input.data = .Struct fs) (hnamed : ∀ f ∈ fs, f.ident.isSome)
    (hnodup : (fs.map Field.ident).Nodup)
    (hid : (∀ f ∈ fs, f.ident ≠ some "id") ∨
           (∃ f ∈ fs, f.ident = some "id" ∧ classifyField f = .Other)) :
    entity.precondition input = some (.error "expected `id` field with type Uuid") := by
  have hB1 : fs.any (fun f => f.ident == some "id" && is_uuid_type f) = false := by
    rw [List.any_eq_false]
    intro f hf
    rcases hid with hnone | ⟨f₀, hf₀, hname₀, hother₀⟩
    · simp [hnone f hf]
    · by_cases hfe : f.ident = some "id"
      · have : f = f₀ :=
          List.inj_on_of_nodup_map hnodup hf hf₀ (by rw [hfe, hname₀])
        subst this
        simp [classifyField_Other_not_uuid f hother₀]
      · simp [hfe]
  rw [entity_precondition_eq input fs hdata hnamed, hB1]
  rfl

/-- Witness for C8 at the spec's scenario `{name: String}`: the record has
neither `id` nor `version`, and validation reports the missing `id`. -/
theorem C8_missing_id_diagnostic_witness :
    entity.precondition nameOnlyRecord =
      some (.error "expected `id` field with type Uuid") :=
  C8_missing_id_diagnostic nameOnlyRecord _ rfl (by decide) (by decide)
    (Or.inl (by decide))

/-- C1: the claim (and the validator's own doc comment) requires the
domain-event validator to reject a record lacking `aggregate_id` and
`occurred`, with a diagnostic naming the field — but the validator accepts
it: `check_aggregate_id_field` and `check_occurred_field` both test
`has_id_field` instead of the matching (dead) `has_aggregate_id_field` /
`has_occurred_field` predicates, which would each have returned `false`
here. -/
theorem C1_domain_event_validation_bug :
    domain_event.precondition eventMissingFields = some (.ok ()) ∧
    domainEventRequirements eventMissingFields.data = false ∧
    domain_event.has_aggregate_id_field eventMissingFields.data = some false ∧
    domain_event.has_occurred_field eventMissingFields.data = some false := by
  decide

/-- `anyOpt` propagates a panic in the predicate at the head element. -/
theorem anyOpt_none_head (p : α → Option Bool) (a : α) (l : List α)
    (h : p a = none) : anyOpt p (a :: l) = none := by
  rw [anyOpt_cons, h]

/-- C10: For every struct declaration whose fields are unnamed (a tuple
struct, with at least one field to unwrap), the precondition validators of
the identity-record, domain-event-record, and validated-value generators
panic on the absent field identifier instead of returning an error result,
so no span-anchored diagnostic is produced. -/
theorem C10_tuple_struct_panics (name : String) (fs : List Field)
    (hne : fs ≠ []) (hunnamed : ∀ f ∈ fs, f.ident = none) :
    entity.precondition { ident := name, data := .Struct fs } = none ∧
    domain_event.precondition { ident := name, data := .Struct fs } = none ∧
    value_object.precondition { ident := name, data := .Struct fs } = none := by
  obtain ⟨f, rest, rfl⟩ : ∃ f rest, fs = f :: rest := by
    cases fs with
    | nil => exact absurd rfl hne
    | cons f r => exact ⟨f, r, rfl⟩
  have hf : f.ident = none := hunnamed f (List.mem_cons_self f rest)
  have e1 : entity.has_id_field (.Struct (f :: rest)) = none := by
    simp only [entity.has_id_field, anyOpt_cons]
    simp [hf]
  have e2 : domain_event.has_id_field (.Struct (f :: rest)) = none := by
    simp only [domain_event.has_id_field, anyOpt_cons]
    simp [hf]
  have e3 : value_object.has_value_field (.Struct (f :: rest)) = none := by
    simp only [value_object.has_value_field, anyOpt_cons]
    simp [hf]
  refine ⟨?_, ?_, ?_⟩
  · simp [entity.precondition, entity.check_id_field, e1, Bind.bind, Option.bind]
  · simp [domain_event.precondition, domain_event.check_id_field, e2,
          Bind.bind, Option.bind]
  · simp [value_object.precondition, value_object.check_value_field, e3,
          Bind.bind, Option.bind]

/-- Witness for C10 at `struct Wrapper(u64);`. -/
theorem C10_tuple_struct_panics_witness :
    entity.precondition { ident := "Wrapper", data := .Struct tupleWrapper } = none ∧
    domain_event.precondition { ident := "Wrapper", data := .Struct tupleWrapper } = none ∧
    value_object.precondition { ident := "Wrapper", data := .Struct tupleWrapper } = none :=
  C10_tuple_struct_panics "Wrapper" tupleWrapper (by decide) (by decide)

/-- C4 counterexample: for the struct `Email`, validated-value synthesis
succeeds but the error type written into the generated `TryFrom` impl is
the fixed path `crate::Error`, not the conventional `EmailValidationError`
that the claim (and the crate's stale doc comment) promises — the
`error_name_from_type` call in `value_object_derive` is commented out. -/
theorem C4_error_name_counterexample :
    value_object_derive emailRecord =
      some { typeName := "Email", tryFromSource := "String",
             errorTypePath := "crate::Error" } ∧
    value_object.error_name_from_type "Email" = "EmailValidationError" ∧
    "crate::Error" ≠ "EmailValidationError" := by
  decide

/-- C4 amended: every successful validated-value synthesis names the fixed
crate-root path `crate::Error` as the generated constructor's error type,
independent of the record's name; the deterministic
`<TypeName>ValidationError` naming survives only in the unused helper
`error_name_from_type`. -/
theorem C4_amended_error_type (input : DeriveInput) (g : ValueGen)
    (h : value_object_derive input = some g) :
    g.errorTypePath = "crate::Error" ∧
    value_object.error_name_from_type input.ident = input.ident ++ "ValidationError" := by
  refine ⟨?_, rfl⟩
  unfold value_object_derive at h
  cases hp : value_object.precondition input with
  | none => rw [hp] at h; simp [Bind.bind, Option.bind] at h
  | some r =>
    rw [hp] at h
    cases r with
    | error e => simp [Bind.bind, Option.bind] at h
    | ok u =>
      cases hv : value_object.value_type_name input.data with
      | none => rw [hv] at h; simp [Bind.bind, Option.bind] at h
      | some o =>
        rw [hv] at h
        cases o with
        | none => simp [Bind.bind, Option.bind] at h
        | some tn =>
          simp only [Bind.bind, Option.bind] at h
          cases h
          rfl

/-- C4 amended witness at `Email`. -/
theorem C4_amended_error_type_witness :
    ValueGen.errorTypePath
        { typeName := "Email", tryFromSource := "String",
          errorTypePath := "crate::Error" } = "crate::Error" ∧
    value_object.error_name_from_type "Email" = "Email" ++ "ValidationError" :=
  C4_amended_error_type emailRecord _ (by decide)

/-- C6: For every record with exactly one field, named `value`,
validated-value validation succeeds, and the generated fallible
constructor returns the error value exactly when the externally supplied
`validate` rejects the input, and otherwise wraps the input unchanged, so
that the `value` accessor round-trips: `value (construct x) = x` for every
`x` accepted by `validate`. -/
theorem C6_value_roundtrip {α ε : Type} (validate : α → Except ε Unit)
    (input : DeriveInput) (fs : List Field)
    (hdata : input.data = .Struct fs)
    (hone : fs.length = 1) (hval : ∀ f ∈ fs, f.ident = some "value") :
    value_object.precondition input = some (.ok ()) ∧
    (∀ x e, validate x = .error e → generated_try_from validate x = .error e) ∧
    (∀ x e, generated_try_from validate x = .error e → validate x = .error e) ∧
    (∀ x, validate x = .ok () →
      (generated_try_from validate x).map ValueRec.getValue = .ok x) := by
  refine ⟨?_, ?_, ?_, ?_⟩
  · obtain ⟨f, rfl⟩ := List.length_eq_one.mp hone
    have hf := hval f (List.mem_cons_self f [])
    simp [value_object.precondition, value_object.check_value_field,
          value_object.has_value_field, value_object.has_one_field, hdata, hf,
          anyOpt_cons, Bind.bind, Option.bind]
  · intro x e h
    simp [generated_try_from, h]
  · intro x e h
    unfold generated_try_from at h
    cases hv : validate x with
    | error e' =>
      rw [hv] at h
      simp only [Except.error.injEq] at h
      rw [h]
    | ok u =>
      rw [hv] at h
      cases h
  · intro x h
    simp [generated_try_from, h, ValueRec.getValue, Except.map]

/-- C6 witness at the crate's `Email` example record and a concrete
accepted input. -/
theorem C6_value_roundtrip_witness :
    value_object.precondition emailRecord = some (.ok ()) ∧
    (generated_try_from evenValidate 4).map ValueRec.getValue = .ok 4 := by
  have h := C6_value_roundtrip evenValidate emailRecord _ rfl (by decide) (by decide)
  exact ⟨h.1, h.2.2.2 4 (by decide)⟩

/-- A generated dispatcher body forwards any listed variant's value to the
payload's accessor. -/
theorem evalDispatch_mem (parent f : String) (arms : List String)
    (p : EventMeta) (w : String) (hw : w ∈ arms) :
    evalDispatch (.matchForward parent arms f) { variantName := w, payload := p }
      = p.call f := by
  have hc : arms.contains w = true := List.elem_iff.mpr hw
  simp only [evalDispatch]
  rw [hc]
  simp

/-- A generated dispatcher body has no arm for an unlisted variant (no
default arm). -/
theorem evalDispatch_not_mem (parent f : String) (arms : List String)
    (p : EventMeta) (w : String) (hw : w ∉ arms) :
    evalDispatch (.matchForward parent arms f) { variantName := w, payload := p }
      = none := by
  have hc : arms.contains w = false := by
    cases hcc : arms.contains w
    · rfl
    · exact absurd (List.elem_iff.mp hcc) hw
  simp only [evalDispatch]
  rw [hc]
  simp

/-- C5: For every sum declaration with N variants, each of the four
dispatcher methods (`occurred`, `id`, `aggregate_id`, `version`) is one
instance of the single forwarding template parameterized only by the
accessor name; it is an exhaustive case analysis with exactly N arms and
no default arm (an unlisted variant value has no arm at all), and invoking
a dispatcher on a value of variant k returns the same result as invoking
the same-named accessor directly on that variant's payload. -/
theorem C5_sum_dispatchers (input : DeriveInput) (vs : List Variant)
    (hdata : input.data = .Enum vs)
    (k : Nat) (hk : k < vs.length) (p : EventMeta) (f : String)
    (hf : f ∈ ["occurred", "id", "aggregate_id", "version"]) :
    ∃ gen, domain_events_derive input = some gen ∧
      ∃ m ∈ gen, m.name = f ∧
        m.body = .matchForward input.ident (vs.map Variant.ident) f ∧
        armCount m.body = vs.length ∧
        evalDispatch m.body { variantName := (vs.get ⟨k, hk⟩).ident, payload := p }
          = p.call f ∧
        (∀ w, (∀ v ∈ vs, v.ident ≠ w) →
          evalDispatch m.body { variantName := w, payload := p } = none) := by
  have hgen : domain_events_derive input =
      some [ { name := "occurred", docs := [],
               body := .matchForward input.ident (vs.map Variant.ident) "occurred" },
             { name := "id", docs := [],
               body := .matchForward input.ident (vs.map Variant.ident) "id" },
             { name := "aggregate_id", docs := [],
               body := .matchForward input.ident (vs.map Variant.ident) "aggregate_id" },
             { name := "version", docs := [],
               body := .matchForward input.ident (vs.map Variant.ident) "version" } ] := by
    simp [domain_events_derive, domain_events.precondition,
          domain_events.check_if_enum, domain_events.is_enum,
          domain_events.create_inner_match_for_getter, hdata,
          Bind.bind, Option.bind]
  have harm : ∀ g : String,
      armCount (GenExpr.matchForward input.ident (vs.map Variant.ident) g)
        = vs.length := by
    intro g; simp [armCount]
  have hfwd : ∀ g : String,
      evalDispatch (GenExpr.matchForward input.ident (vs.map Variant.ident) g)
          { variantName := (vs.get ⟨k, hk⟩).ident, payload := p } = p.call g := by
    intro g
    exact evalDispatch_mem _ _ _ _ _
      (List.mem_map_of_mem Variant.ident (vs.get_mem k hk))
  have hnone : ∀ g : String, ∀ w, (∀ v ∈ vs, v.ident ≠ w) →
      evalDispatch (GenExpr.matchForward input.ident (vs.map Variant.ident) g)
          { variantName := w, payload := p } = none := by
    intro g w hw
    apply evalDispatch_not_mem
    intro hmem
    obtain ⟨v, hv, hvw⟩ := List.mem_map.mp hmem
    exact hw v hv hvw
  refine ⟨_, hgen, ?_⟩
  simp only [List.mem_cons, List.not_mem_nil, or_false] at hf
  rcases hf with rfl | rfl | rfl | rfl
  · refine ⟨{ name := "occurred", docs := [],
              body := .matchForward input.ident (vs.map Variant.ident) "occurred" },
            ?_, rfl, rfl, harm _, hfwd _, hnone _⟩
    simp
  · refine ⟨{ name := "id", docs := [],
              body := .matchForward input.ident (vs.map Variant.ident) "id" },
            ?_, rfl, rfl, harm _, hfwd _, hnone _⟩
    simp
  · refine ⟨{ name := "aggregate_id", docs := [],
              body := .matchForward input.ident (vs.map Variant.ident) "aggregate_id" },
            ?_, rfl, rfl, harm _, hfwd _, hnone _⟩
    simp
  · refine ⟨{ name := "version", docs := [],
              body := .matchForward input.ident (vs.map Variant.ident) "version" },
            ?_, rfl, rfl, harm _, hfwd _, hnone _⟩
    simp

/-- C5 witness at the spec's two-variant scenario, dispatching `version`
on a value of the first variant. -/
theorem C5_sum_dispatchers_witness :
    ∃ gen, domain_events_derive userEventsEnum = some gen ∧
      ∃ m ∈ gen, m.name = "version" ∧
        m.body = .matchForward "UserEvents" ["A", "B"] "version" ∧
        armCount m.body = 2 ∧
        evalDispatch m.body { variantName := "A", payload := eventAPayload }
          = eventAPayload.call "version" ∧
        (∀ w, (∀ v ∈ [Variant.mk "A", Variant.mk "B"], v.ident ≠ w) →
          evalDispatch m.body { variantName := w, payload := eventAPayload } = none) :=
  C5_sum_dispatchers userEventsEnum [ { ident := "A" }, { ident := "B" } ] rfl
    0 (by decide) eventAPayload "version" (by decide)

/-- On all-named field lists the getter loop succeeds and produces
`gettersOf`. -/
theorem produceGettersList_eq (fs : List Field)
    (hnamed : ∀ f ∈ fs, f.ident.isSome) :
    entity.produceGettersList fs = some (gettersOf fs) := by
  induction fs with
  | nil => rfl
  | cons f rest ih =>
    obtain ⟨n, hn⟩ := Option.isSome_iff_exists.mp (hnamed f (List.mem_cons_self f rest))
    have hrest := ih (fun g hg => hnamed g (List.mem_cons_of_mem f hg))
    by_cases hid : n = "id"
    · subst hid
      simp only [entity.produceGettersList, hn, Option.some_bind]
      simp [gettersOf, List.filter_cons, hn, hrest]
    · by_cases hver : n = "version"
      · subst hver
        simp only [entity.produceGettersList, hn, Option.some_bind]
        simp [gettersOf, List.filter_cons, hn, hrest]
      · simp only [entity.produceGettersList, hn, Option.some_bind,
                   entity.implement_getter]
        simp [hid, hver, gettersOf, List.filter_cons, hn, getterOf, hrest]

/-- No generated getter is named `id` or `version` (those fields are
filtered out before getter generation). -/
theorem gettersOf_no_id_version (fs : List Field)
    (hnamed : ∀ f ∈ fs, f.ident.isSome) :
    ∀ m ∈ gettersOf fs, m.name ≠ "id" ∧ m.name ≠ "version" := by
  intro m hm
  obtain ⟨f, hf, rfl⟩ := List.mem_map.mp hm
  obtain ⟨hmem, hq⟩ := List.mem_filter.mp hf
  obtain ⟨n, hn⟩ := Option.isSome_iff_exists.mp (hnamed f hmem)
  simp only [hn, Bool.and_eq_true, Bool.not_eq_true'] at hq
  obtain ⟨h1, h2⟩ := hq
  constructor
  · simp only [getterOf, hn, Option.getD_some]
    intro hc
    rw [hc] at h1
    simp at h1
  · simp only [getterOf, hn, Option.getD_some]
    intro hc
    rw [hc] at h2
    simp at h2

/-- `entity_derive` in normal form on a validated, all-named record. -/
theorem entity_derive_eq (input : DeriveInput) (fs : List Field)
    (hdata : input.data = .Struct fs) (hnamed : ∀ f ∈ fs, f.ident.isSome)
    (hpre : entity.precondition input = some (.ok ())) :
    entity_derive input =
      some ({ name := "id", docs := [],
              body := .methodCall (.selfField "id") "to_string" } ::
            { name := "eq", docs := [],
              body := .eqCmp (.selfField "id") (.otherField "id") } ::
            gettersOf fs) := by
  have hg : entity.produce_getters input = some (.ok (gettersOf fs)) := by
    simp [entity.produce_getters, hdata, produceGettersList_eq fs hnamed,
          Bind.bind, Option.bind]
  simp [entity_derive, hpre, hg, Bind.bind, Option.bind]

/-- C2 counterexample: at the record `{id: Uuid, version: u64}` the
identity-record requirements hold and synthesis succeeds, but the emitted
implementation has no `version()` accessor at all, and its `id()` body is
`self.id.to_string()` — a string conversion, not a reference to the `id`
field. -/
theorem C2_entity_counterexample :
    entityRequirements userIdVersion.data = true ∧
    entity_derive userIdVersion = some userIdVersionGen ∧
    (¬ ∃ m ∈ userIdVersionGen, m.name = "version") ∧
    (¬ ∃ m ∈ userIdVersionGen, m.name = "id" ∧ m.body = .refSelfField "id") := by
  decide

/-- C2 amended: for every record with `id` classified Identifier, `version`
classified Integer and no public field, identity-record synthesis succeeds
and emits an identity-access implementation whose `id()` returns the
string rendering `self.id.to_string()` of the `id` field, plus an equality
implementation comparing `id` fields; no `version()` accessor is emitted —
the `version` field only participates in validation. -/
theorem C2_entity_synthesis_amended (input : DeriveInput) (fs : List Field)
    (hdata : input.data = .Struct fs) (hnamed : ∀ f ∈ fs, f.ident.isSome)
    (hreq : entityRequirements input.data = true) :
    ∃ gen, entity_derive input = some gen ∧
      (∃ m ∈ gen, m.name = "id" ∧
        m.body = .methodCall (.selfField "id") "to_string") ∧
      (∃ m ∈ gen, m.name = "eq" ∧
        m.body = .eqCmp (.selfField "id") (.otherField "id")) ∧
      (∀ m ∈ gen, m.name ≠ "version") := by
  have hpub : entity.has_public_field (.Struct fs) = false := by
    rw [hdata] at hreq
    simp only [entityRequirements, Bool.and_eq_true, Bool.not_eq_true'] at hreq
    exact hreq.2
  have hpre : entity.precondition input = some (.ok ()) := by
    rw [hdata] at hreq
    simp only [entityRequirements, hasFieldNamed, Bool.and_eq_true] at hreq
    obtain ⟨⟨h1, h2⟩, _⟩ := hreq
    rw [entity_precondition_eq input fs hdata hnamed]
    rw [h1, h2]
    have hpub' : fs.any entity.is_public = false := hpub
    simp [hpub']
  rw [entity_derive_eq input fs hdata hnamed hpre]
  refine ⟨_, rfl,
    ⟨{ name := "id", docs := [],
       body := .methodCall (.selfField "id") "to_string" }, by simp, rfl, rfl⟩,
    ⟨{ name := "eq", docs := [],
       body := .eqCmp (.selfField "id") (.otherField "id") }, by simp, rfl, rfl⟩,
    ?_⟩
  intro m hm
  rcases List.mem_cons.mp hm with rfl | hm1
  · simp
  rcases List.mem_cons.mp hm1 with rfl | hm2
  · simp
  · exact (gettersOf_no_id_version fs hnamed m hm2).2

/-- C2 amended witness at `goodUser`. -/
theorem C2_entity_synthesis_amended_witness :
    ∃ gen, entity_derive goodUser = some gen ∧
      (∃ m ∈ gen, m.name = "id" ∧
        m.body = .methodCall (.selfField "id") "to_string") ∧
      (∃ m ∈ gen, m.name = "eq" ∧
        m.body = .eqCmp (.selfField "id") (.otherField "id")) ∧
      (∀ m ∈ gen, m.name ≠ "version") :=
  C2_entity_synthesis_amended goodUser _ rfl (by decide) (by decide)

/-- C3 counterexample: `fullEventRecord` satisfies the four field
requirements (`i64` is Integer-classified), yet on a state storing
`version = -1` the generated `version()` accessor (`self.version as u64`)
returns `2 ^ 64 - 1`, not the stored field value — `as u64` is a
two's-complement reinterpretation, not a value-preserving widening; the
generated `id()` accessor moreover returns `self.id.to_string()`, a string
conversion of the stored field. -/
theorem C3_accessor_counterexample :
    domainEventRequirements fullEventRecord.data = true ∧
    (genVersion negVersionState : Int) ≠ negVersionState.version ∧
    genVersion negVersionState = 2 ^ 64 - 1 := by
  refine ⟨by decide, ?_, ?_⟩
  · decide
  · decide

/-- C3 amended: of the four generated accessors, `occurred` and
`aggregate_id` return the stored fields unchanged; `version` returns the
stored value reduced modulo `2 ^ 64` (Rust `as u64`), which is a pure
value-preserving widening exactly for non-negative values below `2 ^ 64`;
and `id` is not the stored field but the `self.id.to_string()` rendering,
as the emitted method bodies show. -/
theorem C3_accessors_amended (r : EvtState) :
    genOccurred r = r.occurred ∧
    genAggregateId r = r.aggregate_id ∧
    (genVersion r : Int) = r.version.emod (2 ^ 64) ∧
    (0 ≤ r.version → r.version < 2 ^ 64 → (genVersion r : Int) = r.version) ∧
    domain_event_methods.map (fun m => (m.name, m.body)) =
      [ ("occurred", .selfField "occurred"),
        ("id", .methodCall (.selfField "id") "to_string"),
        ("aggregate_id", .methodCall (.selfField "aggregate_id") "clone"),
        ("version", .asU64 (.selfField "version")) ] := by
  have hmod : (genVersion r : Int) = r.version.emod (2 ^ 64) :=
    Int.toNat_of_nonneg (Int.emod_nonneg _ (by norm_num))
  refine ⟨rfl, rfl, hmod, ?_, by decide⟩
  intro h0 hlt
  rw [hmod]
  show r.version % 2 ^ 64 = r.version
  exact Int.emod_eq_of_lt h0 hlt

/-- C3 amended witness: at a stored `version` of 5 the generated accessor
does return the stored value. -/
theorem C3_accessors_amended_witness :
    (genVersion { id := { val := 1 }, aggregate_id := { val := 2 },
                  occurred := 3, version := 5 } : Int) = 5 :=
  (C3_accessors_amended _).2.2.2.1 (by decide) (by decide)

/-- In a struct with pairwise-distinct field idents, filtering by a field's
name finds exactly that field. -/
theorem filter_ident_singleton (n : String) (f : Field) (hn : f.ident = some n) :
    ∀ fs : List Field, (fs.map Field.ident).Nodup → f ∈ fs →
      fs.filter (fun g => g.ident == some n) = [f] := by
  intro fs
  induction fs with
  | nil => intro _ h; cases h
  | cons f0 rest ih =>
    intro hnodup hmem
    rw [List.map_cons, List.nodup_cons] at hnodup
    obtain ⟨hnotin, hnd⟩ := hnodup
    rcases List.mem_cons.mp hmem with rfl | hmem'
    · have htail : rest.filter (fun g => g.ident == some n) = [] := by
        rw [List.filter_eq_nil_iff]
        intro g hg
        simp only [beq_iff_eq]
        intro hgid
        rw [hn] at hnotin
        exact hnotin (hgid ▸ List.mem_map_of_mem Field.ident hg)
      rw [List.filter_cons_of_pos (by simp [hn]), htail]
    · have hne : (f0.ident == some n) = false := by
        rw [beq_eq_false_iff_ne]
        intro h0
        have hmm : some n ∈ rest.map Field.ident :=
          hn ▸ List.mem_map_of_mem Field.ident hmem'
        exact hnotin (h0 ▸ hmm)
      rw [List.filter_cons_of_neg (by simp [hne])]
      exact ih hnd hmem'

/-- C9: For every record accepted by identity-record validation, synthesis
emits, for each field other than `id` and `version`, exactly one read-only
accessor named after the field, whose body returns a reference to the
field (`&self.field`), with the field's captured `doc` attributes
re-emitted immediately above it. -/
theorem C9_getters (input : DeriveInput) (fs : List Field)
    (hdata : input.data = .Struct fs) (hnamed : ∀ f ∈ fs, f.ident.isSome)
    (hnodup : (fs.map Field.ident).Nodup)
    (_haccepted : entity.precondition input = some (.ok ()))
    (f : Field) (n : String) (hf : f ∈ fs) (hn : f.ident = some n)
    (hid : n ≠ "id") (hver : n ≠ "version") :
    ∃ gs, entity.produce_getters input = some (.ok gs) ∧
      gs.filter (fun g => g.name == n) =
        [{ name := n, docs := f.attrs.filter (fun a => a.path == "doc"),
           body := .refSelfField n }] := by
  have hg : entity.produce_getters input = some (.ok (gettersOf fs)) := by
    simp [entity.produce_getters, hdata, produceGettersList_eq fs hnamed,
          Bind.bind, Option.bind]
  refine ⟨_, hg, ?_⟩
  unfold gettersOf
  rw [List.filter_map, List.filter_filter]
  have hcong : ∀ a ∈ fs,
      (((fun g => g.name == n) ∘ getterOf) a &&
        (!(a.ident == some "id") && !(a.ident == some "version"))) = (a.ident == some n) := by
    intro a ha
    obtain ⟨m, hm⟩ := Option.isSome_iff_exists.mp (hnamed a ha)
    simp only [Function.comp, getterOf, hm, Option.getD_some]
    by_cases hmn : m = n
    · subst hmn
      simp [hid, hver]
    · simp [hmn]
  rw [List.filter_congr hcong]
  rw [filter_ident_singleton n f hn fs hnodup hf]
  simp [getterOf, hn]

/-- C9 witness at `documentedUser`: exactly one getter named `email`, with
only the `doc` attribute re-emitted above it. -/
theorem C9_getters_witness :
    ∃ gs, entity.produce_getters documentedUser = some (.ok gs) ∧
      gs.filter (fun g => g.name == "email") =
        [{ name := "email",
           docs := [ { path := "doc", text := " The email of the user." } ],
           body := .refSelfField "email" }] :=
  C9_getters documentedUser _ rfl (by decide) (by decide) (by decide)
    { ident := some "email", ty := .path "String", isPub := false,
      attrs := [ { path := "doc", text := " The email of the user." },
                 { path := "serde", text := "skip" } ] }
    "email" (by decide) rfl (by decide) (by decide)
